import Mathlib

/-!
Verification development for the `check-shipment` website pre-deployment
validator.  The definitions below are a shallow embedding of the
TypeScript sources:

* `src/utils/url.ts`        — URL normalization and domain matching
* `src/crawler.ts`          — the link frontier (`addDiscoveredLink`)
* `src/checkers/link-checker.ts` (cached variant shipped in the repo) —
  `validateUrl` with response cache, retry/backoff and error taxonomy
* `src/checkers/seo-validator.ts` — metadata hygiene checks
* `src/checkers/page-validator.ts` — soft-404 detection and page status
* `src/utils/sitemap.ts`    — sitemap ingestion

The JavaScript platform pieces the code calls into (`new URL`, `fetch`,
DOM queries) are modelled explicitly: `parseURL` implements the WHATWG
URL parser restricted to absolute `http`/`https` URLs written with a
lower-case scheme and host and without percent-encoding, dot-segment or
default-port normalization; the existence-check transport is a function
from the attempt index to a fetch outcome; extracted page data (title,
body text, meta tags) is passed as explicit values.  Strings are worked
with through their underlying character lists so that every definition
evaluates by kernel reduction.
-/

/-- A parsed URL, mirroring the fields of the WHATWG `URL` object that
`src/utils/url.ts` reads and writes (`pathname`, `search`, `hash`,
`hostname`).  `port` keeps its leading colon; `search` its leading
question mark; `hash` its leading hash sign, as in the JS serializer. -/
structure URLObj where
  scheme : List Char
  hostname : List Char
  port : List Char
  pathname : List Char
  search : List Char
  frag : List Char
deriving DecidableEq, Repr

/-- Characters allowed inside the authority component: everything up to
the first `/`, `?` or `#`. -/
def isAuthorityChar (c : Char) : Bool :=
  !(c = '/' || c = '?' || c = '#')

/-- Characters allowed inside the path component: everything up to the
first `?` or `#`. -/
def isPathChar (c : Char) : Bool :=
  !(c = '?' || c = '#')

/-- Parse everything after the `scheme://` part of an absolute URL.
The authority runs up to the first `/`, `?` or `#` and is split into
hostname and (colon-prefixed) port; an empty hostname is invalid for
http(s) URLs; an empty path serializes as `/`. -/
def parseAfterScheme (scheme rest : List Char) : Option URLObj :=
  let authority := rest.takeWhile isAuthorityChar
  let afterAuthority := rest.dropWhile isAuthorityChar
  let hostname := authority.takeWhile (fun c => !(c = ':'))
  let port := authority.dropWhile (fun c => !(c = ':'))
  if hostname.isEmpty then none
  else
    let path := afterAuthority.takeWhile isPathChar
    let afterPath := afterAuthority.dropWhile isPathChar
    let pathname := if path.isEmpty then ['/'] else path
    let search := afterPath.takeWhile (fun c => !(c = '#'))
    let frag := afterPath.dropWhile (fun c => !(c = '#'))
    some ⟨scheme, hostname, port, pathname, search, frag⟩

/-- Model of `new URL(url)` for absolute `http`/`https` URLs: `none`
models the constructor throwing. -/
def parseURL : List Char → Option URLObj
  | 'h' :: 't' :: 't' :: 'p' :: ':' :: '/' :: '/' :: rest =>
      parseAfterScheme "http".data rest
  | 'h' :: 't' :: 't' :: 'p' :: 's' :: ':' :: '/' :: '/' :: rest =>
      parseAfterScheme "https".data rest
  | _ => none

/-- Model of `URL#toString()`: concatenate the components back. -/
def URLObj.toChars (u : URLObj) : List Char :=
  u.scheme ++ "://".data ++ u.hostname ++ u.port ++ u.pathname ++ u.search ++ u.frag

/-- The trailing-slash removal of `normalizeUrl`
(`src/utils/url.ts:16-18`): drop one final `/` unless the path is just
the root. -/
def stripTrailingSlash (p : List Char) : List Char :=
  if 1 < p.length && p.getLast? = some '/' then p.dropLast else p

/-- The `normalizeUrl` on character lists (`src/utils/url.ts:6-26`): clear
`search` and `hash`, strip one trailing slash from the path, serialize;
a parse failure returns the input unchanged. -/
def normalizeChars (l : List Char) : List Char :=
  match parseURL l with
  | none => l
  | some u =>
      URLObj.toChars { u with pathname := stripTrailingSlash u.pathname, search := [], frag := [] }

/-- The `normalizeUrl` from `src/utils/url.ts`. -/
def normalizeUrl (s : String) : String :=
  String.mk (normalizeChars s.data)

/-- The `getBaseDomain` (`src/utils/url.ts:47-61`): hostname with a leading
`www.` removed; the empty string on parse failure. -/
def getBaseDomainChars (l : List Char) : List Char :=
  match parseURL l with
  | none => []
  | some u =>
      if u.hostname.take 4 = "www.".data then u.hostname.drop 4 else u.hostname

/-- The `getBaseDomain` from `src/utils/url.ts`. -/
def getBaseDomain (s : String) : String :=
  String.mk (getBaseDomainChars s.data)

/-- The `isSameDomain` (`src/utils/url.ts:69-74`): equal and non-empty base
domains. -/
def isSameDomain (url1 url2 : String) : Bool :=
  (getBaseDomain url1 == getBaseDomain url2) && !(getBaseDomain url1 == "")

/-- The `isValidUrl` (`src/utils/url.ts:81-88`): whether `new URL` would
succeed. -/
def isValidUrl (s : String) : Bool :=
  (parseURL s.data).isSome

/-- Every element of `takeWhile p l` is an element of `l`. -/
theorem mem_of_mem_takeWhile {α} {p : α → Bool} {l : List α} {a : α}
    (h : a ∈ l.takeWhile p) : a ∈ l := by
  induction l with
  | nil => simp at h
  | cons x t ih =>
    rw [List.takeWhile_cons] at h
    by_cases hx : p x = true
    · simp [hx] at h
      rcases h with h | h
      · simp [h]
      · exact List.mem_cons_of_mem _ (ih h)
    · simp [Bool.eq_false_iff.mpr hx] at h

/-- Every element of `takeWhile p l` satisfies `p`. -/
theorem pred_of_mem_takeWhile {α} {p : α → Bool} {l : List α} {a : α}
    (h : a ∈ l.takeWhile p) : p a = true := by
  induction l with
  | nil => simp at h
  | cons x t ih =>
    rw [List.takeWhile_cons] at h
    by_cases hx : p x = true
    · simp [hx] at h
      rcases h with h | h
      · exact h ▸ hx
      · exact ih h
    · simp [Bool.eq_false_iff.mpr hx] at h

/-- Every element of `dropWhile p l` is an element of `l`. -/
theorem mem_of_mem_dropWhile {α} {p : α → Bool} {l : List α} {a : α}
    (h : a ∈ l.dropWhile p) : a ∈ l := by
  induction l with
  | nil => simp at h
  | cons x t ih =>
    rw [List.dropWhile_cons] at h
    by_cases hx : p x = true
    · simp only [hx, if_pos rfl] at h
      exact List.mem_cons_of_mem _ (ih h)
    · simp [Bool.eq_false_iff.mpr hx] at h
      rcases h with h | h
      · simp [h]
      · exact List.mem_cons_of_mem _ h

/-- The `dropWhile p l` is empty or starts with an element refuting `p`. -/
theorem dropWhile_shape {α} (p : α → Bool) (l : List α) :
    l.dropWhile p = [] ∨ ∃ x r, l.dropWhile p = x :: r ∧ p x = false := by
  induction l with
  | nil => exact Or.inl rfl
  | cons x t ih =>
    rw [List.dropWhile_cons]
    by_cases hx : p x = true
    · simpa [hx] using ih
    · exact Or.inr ⟨x, t, by simp [Bool.eq_false_iff.mpr hx], Bool.eq_false_iff.mpr hx⟩

/-- The `takeWhile` passes over a block of elements that all satisfy `p`. -/
theorem takeWhile_append_all {α} {p : α → Bool} {l1 : List α} (l2 : List α)
    (h : ∀ a ∈ l1, p a = true) :
    (l1 ++ l2).takeWhile p = l1 ++ l2.takeWhile p := by
  induction l1 with
  | nil => rfl
  | cons x t ih =>
    have hx := h x (List.mem_cons_self x t)
    simp [List.takeWhile_cons, hx, ih (fun a ha => h a (List.mem_cons_of_mem _ ha))]

/-- The `dropWhile` drops a block of elements that all satisfy `p`. -/
theorem dropWhile_append_all {α} {p : α → Bool} {l1 : List α} (l2 : List α)
    (h : ∀ a ∈ l1, p a = true) :
    (l1 ++ l2).dropWhile p = l2.dropWhile p := by
  induction l1 with
  | nil => rfl
  | cons x t ih =>
    have hx := h x (List.mem_cons_self x t)
    simp [List.dropWhile_cons, hx, ih (fun a ha => h a (List.mem_cons_of_mem _ ha))]

/-- The `takeWhile` keeps a whole list that satisfies `p`. -/
theorem takeWhile_all {α} {p : α → Bool} {l : List α}
    (h : ∀ a ∈ l, p a = true) : l.takeWhile p = l := by
  have := takeWhile_append_all (p := p) ([]) h
  simpa using this

/-- The `dropWhile` drops a whole list that satisfies `p`. -/
theorem dropWhile_all {α} {p : α → Bool} {l : List α}
    (h : ∀ a ∈ l, p a = true) : l.dropWhile p = [] := by
  have := dropWhile_append_all (p := p) ([]) h
  simpa using this

/-- Shape facts about any URL object produced by `parseURL`: scheme is
`http` or `https`, hostname is non-empty and free of delimiters, port is
empty or colon-led, the path starts with `/` and contains no `?`/`#`. -/
structure ParsedShape (u : URLObj) : Prop where
  scheme_ok : u.scheme = "http".data ∨ u.scheme = "https".data
  hostname_ne : u.hostname ≠ []
  hostname_chars : ∀ c ∈ u.hostname, isAuthorityChar c = true ∧ c ≠ ':'
  port_chars : ∀ c ∈ u.port, isAuthorityChar c = true
  port_shape : u.port = [] ∨ ∃ r, u.port = ':' :: r
  path_head : ∃ q, u.pathname = '/' :: q
  path_chars : ∀ c ∈ u.pathname, isPathChar c = true

/-- The `parseAfterScheme` only returns objects of the expected shape. -/
theorem parseAfterScheme_shape {scheme rest : List Char} {u : URLObj}
    (hs : scheme = "http".data ∨ scheme = "https".data)
    (h : parseAfterScheme scheme rest = some u) : ParsedShape u := by
  unfold parseAfterScheme at h
  dsimp only at h
  split at h
  · exact absurd h (by simp)
  · rename_i hne
    injection h with h
    subst h
    refine ⟨hs, ?_, ?_, ?_, ?_, ?_, ?_⟩
    · dsimp only
      simpa [List.isEmpty_iff] using hne
    · dsimp only
      intro c hc
      refine ⟨pred_of_mem_takeWhile (mem_of_mem_takeWhile hc), ?_⟩
      have h2 := pred_of_mem_takeWhile hc
      simpa using h2
    · dsimp only
      intro c hc
      exact pred_of_mem_takeWhile (mem_of_mem_dropWhile hc)
    · dsimp only
      rcases dropWhile_shape (fun c => !(c = ':'))
        (rest.takeWhile isAuthorityChar) with h0 | ⟨x, r, hxr, hx⟩
      · exact Or.inl h0
      · refine Or.inr ⟨r, ?_⟩
        have h2 : x = ':' := by simpa using hx
        rw [hxr, h2]
    · dsimp only
      by_cases hp : (rest.dropWhile isAuthorityChar).takeWhile isPathChar = []
      · exact ⟨[], by simp [hp]⟩
      · rcases dropWhile_shape isAuthorityChar rest with h0 | ⟨x, r, hxr, hx⟩
        · rw [h0] at hp
          simp at hp
        · rw [hxr] at hp ⊢
          by_cases hpx : isPathChar x = true
          · have hx' : x = '/' ∨ x = '?' ∨ x = '#' := by
              have h2 := hx
              simp [isAuthorityChar] at h2
              tauto
            have hslash : x = '/' := by
              rcases hx' with h2 | h2 | h2
              · exact h2
              · exact absurd hpx (by simp [isPathChar, h2])
              · exact absurd hpx (by simp [isPathChar, h2])
            subst hslash
            refine ⟨r.takeWhile isPathChar, ?_⟩
            rw [List.takeWhile_cons]
            simp [hpx]
          · rw [List.takeWhile_cons] at hp
            simp [Bool.eq_false_iff.mpr hpx] at hp
    · dsimp only
      intro c hc
      by_cases hp : (rest.dropWhile isAuthorityChar).takeWhile isPathChar = []
      · simp [hp] at hc
        simp [hc, isPathChar]
      · simp [List.isEmpty_iff, hp] at hc
        exact pred_of_mem_takeWhile hc

/-- Any object produced by `parseURL` has the expected shape. -/
theorem parseURL_shape {l : List Char} {u : URLObj}
    (hp : parseURL l = some u) : ParsedShape u := by
  unfold parseURL at hp
  split at hp
  · exact parseAfterScheme_shape (Or.inl rfl) hp
  · exact parseAfterScheme_shape (Or.inr rfl) hp
  · exact absurd hp (by simp)

/-- Serializing a shapely URL object with empty query and fragment and
parsing it back is the identity. -/
theorem parseURL_toChars {u : URLObj} (hu : ParsedShape u)
    (hsearch : u.search = []) (hfrag : u.frag = []) :
    parseURL (URLObj.toChars u) = some u := by
  obtain ⟨scheme, hostname, port, pathname, search, frag⟩ := u
  obtain ⟨hs, hne, hhost, hport, hpshape, hhead, hpchars⟩ := hu
  dsimp only at hs hne hhost hport hpshape hhead hpchars
  dsimp only at hsearch hfrag
  subst hsearch hfrag
  obtain ⟨q, hq⟩ := hhead
  subst hq
  have hauth : ∀ c ∈ hostname ++ port, isAuthorityChar c = true := by
    intro c hc
    rcases List.mem_append.mp hc with hc | hc
    · exact (hhost c hc).1
    · exact hport c hc
  have htw : (hostname ++ (port ++ ('/' :: q))).takeWhile isAuthorityChar
      = hostname ++ port := by
    rw [show hostname ++ (port ++ '/' :: q) = (hostname ++ port) ++ ('/' :: q) by simp,
      takeWhile_append_all _ hauth, List.takeWhile_cons]
    simp [isAuthorityChar]
  have hdw : (hostname ++ (port ++ ('/' :: q))).dropWhile isAuthorityChar
      = '/' :: q := by
    rw [show hostname ++ (port ++ '/' :: q) = (hostname ++ port) ++ ('/' :: q) by simp,
      dropWhile_append_all _ hauth, List.dropWhile_cons]
    simp [isAuthorityChar]
  have hhtw : (hostname ++ port).takeWhile (fun c => !(c = ':')) = hostname := by
    rw [takeWhile_append_all _ (fun c hc => by simpa using (hhost c hc).2)]
    rcases hpshape with h0 | ⟨r, hr⟩
    · simp [h0]
    · rw [hr, List.takeWhile_cons]
      simp
  have hhdw : (hostname ++ port).dropWhile (fun c => !(c = ':')) = port := by
    rw [dropWhile_append_all _ (fun c hc => by simpa using (hhost c hc).2)]
    rcases hpshape with h0 | ⟨r, hr⟩
    · simp [h0]
    · rw [hr, List.dropWhile_cons]
      simp
  have hptw : ('/' :: q).takeWhile isPathChar = '/' :: q := takeWhile_all hpchars
  have hpdw : ('/' :: q).dropWhile isPathChar = [] := dropWhile_all hpchars
  have toChars_http : ∀ h0 p0 pn0 : List Char,
      URLObj.toChars ⟨"http".data, h0, p0, pn0, [], []⟩ =
      "http".data ++ ("://".data ++ (h0 ++ (p0 ++ pn0))) := by
    intro h0 p0 pn0
    simp [URLObj.toChars]
  have toChars_https : ∀ h0 p0 pn0 : List Char,
      URLObj.toChars ⟨"https".data, h0, p0, pn0, [], []⟩ =
      "https".data ++ ("://".data ++ (h0 ++ (p0 ++ pn0))) := by
    intro h0 p0 pn0
    simp [URLObj.toChars]
  have parse_http : ∀ r0 : List Char,
      parseURL ("http".data ++ ("://".data ++ r0)) =
      parseAfterScheme "http".data r0 := fun _ => rfl
  have parse_https : ∀ r0 : List Char,
      parseURL ("https".data ++ ("://".data ++ r0)) =
      parseAfterScheme "https".data r0 := fun _ => rfl
  rcases hs with hs | hs <;> subst hs
  · rw [toChars_http, parse_http]
    unfold parseAfterScheme
    dsimp only
    rw [htw, hdw, hhtw, hhdw, hptw, hpdw]
    have : hostname.isEmpty = false := by
      cases hostname
      · exact absurd rfl hne
      · rfl
    simp [this]
  · rw [toChars_https, parse_https]
    unfold parseAfterScheme
    dsimp only
    rw [htw, hdw, hhtw, hhdw, hptw, hpdw]
    have : hostname.isEmpty = false := by
      cases hostname
      · exact absurd rfl hne
      · rfl
    simp [this]

/-- The `stripTrailingSlash` keeps the leading slash and path characters. -/
theorem stripTrailingSlash_keeps_shape {p : List Char}
    (hhead : ∃ q, p = '/' :: q) (hchars : ∀ c ∈ p, isPathChar c = true) :
    (∃ q, stripTrailingSlash p = '/' :: q) ∧
      ∀ c ∈ stripTrailingSlash p, isPathChar c = true := by
  obtain ⟨q, hq⟩ := hhead
  subst hq
  unfold stripTrailingSlash
  split
  · cases q with
    | nil => simp_all
    | cons y t =>
      refine ⟨⟨(y :: t).dropLast, by simp⟩, ?_⟩
      intro c hc
      exact hchars c ((List.dropLast_sublist _).subset hc)
  · exact ⟨⟨q, rfl⟩, hchars⟩

/-- One application of `normalizeChars` on a parsed URL, unfolded. -/
theorem normalizeChars_parsed {l : List Char} {u : URLObj}
    (hp : parseURL l = some u) :
    normalizeChars l =
      URLObj.toChars
        { u with pathname := stripTrailingSlash u.pathname, search := [], frag := [] } := by
  unfold normalizeChars
  rw [hp]

/-- Applying `normalizeChars` twice equals applying it once, provided
the parsed path does not keep a further trailing slash after one strip. -/
theorem normalizeChars_idem {l : List Char}
    (h : ∀ u, parseURL l = some u →
      stripTrailingSlash (stripTrailingSlash u.pathname) = stripTrailingSlash u.pathname) :
    normalizeChars (normalizeChars l) = normalizeChars l := by
  cases hp : parseURL l with
  | none =>
    have h1 : normalizeChars l = l := by
      unfold normalizeChars
      rw [hp]
    rw [h1, h1]
  | some u =>
    have hu := parseURL_shape hp
    have hstrip := stripTrailingSlash_keeps_shape hu.path_head hu.path_chars
    have hu' : ParsedShape
        { u with pathname := stripTrailingSlash u.pathname, search := [], frag := [] } :=
      ⟨hu.scheme_ok, hu.hostname_ne, hu.hostname_chars, hu.port_chars, hu.port_shape,
        hstrip.1, hstrip.2⟩
    have h1 := normalizeChars_parsed hp
    have h2 := parseURL_toChars hu' rfl rfl
    rw [h1, normalizeChars_parsed h2]
    have h3 := h u hp
    simp only [h3]

/-- Claim C8 counterexample: `normalizeUrl` strips only one trailing
slash, so a path ending in `//` is not a fixed point after one pass. -/
theorem normalizeUrl_idem_counterexample :
    normalizeUrl (normalizeUrl "http://x/a//") ≠ normalizeUrl "http://x/a//" := by
  decide

/-- Claim C8 (amended): `normalizeUrl` is idempotent for every input
string whose parsed path does not still end in a slash after the single
trailing-slash strip (equivalently, for every input that is malformed
or whose path does not end in a double slash); on the excluded inputs
each application removes exactly one more trailing slash. -/
theorem normalizeUrl_idem (s : String)
    (h : match parseURL s.data with
      | none => True
      | some u =>
          stripTrailingSlash (stripTrailingSlash u.pathname) = stripTrailingSlash u.pathname) :
    normalizeUrl (normalizeUrl s) = normalizeUrl s := by
  have key : normalizeChars (normalizeChars s.data) = normalizeChars s.data := by
    apply normalizeChars_idem
    intro u hu
    rw [hu] at h
    exact h
  show String.mk (normalizeChars (normalizeChars s.data)) = String.mk (normalizeChars s.data)
  rw [key]

/-- Claim C8 witness: idempotence at a concrete URL with query, fragment
and a single trailing slash. -/
theorem normalizeUrl_idem_witness :
    normalizeUrl (normalizeUrl "http://ex.com/a/b/?q=1#top") = normalizeUrl "http://ex.com/a/b/?q=1#top" :=
  normalizeUrl_idem "http://ex.com/a/b/?q=1#top"
    (by exact (by decide :
      stripTrailingSlash (stripTrailingSlash "/a/b/".data) = stripTrailingSlash "/a/b/".data))

/-- Claim C9 counterexample: `"http://www./"` is a non-empty URL that
`new URL` accepts (hostname `www.`), yet its base domain is empty after
the `www.` strip, so `isSameDomain` is not reflexive on it. -/
theorem isSameDomain_refl_counterexample :
    "http://www./" ≠ "" ∧ isValidUrl "http://www./" = true ∧
      isSameDomain "http://www./" "http://www./" = false := by
  refine ⟨by decide, by decide, by decide⟩

/-- Claim C9 (amended): `isSameDomain` is symmetric for all inputs, and
reflexive exactly on those URLs whose base domain is non-empty (every
valid URL except ones whose hostname is empty or reduces to empty after
removing a leading `www.`). -/
theorem isSameDomain_symm_and_refl :
    (∀ a b : String, isSameDomain a b = isSameDomain b a) ∧
      (∀ a : String, getBaseDomain a ≠ "" → isSameDomain a a = true) := by
  constructor
  · intro a b
    by_cases h : getBaseDomain a = getBaseDomain b
    · simp [isSameDomain, h]
    · have e1 : (getBaseDomain a == getBaseDomain b) = false :=
        beq_eq_false_iff_ne.mpr h
      have e2 : (getBaseDomain b == getBaseDomain a) = false :=
        beq_eq_false_iff_ne.mpr fun hh => h hh.symm
      simp [isSameDomain, e1, e2]
  · intro a h
    simp [isSameDomain, h]

/-- Claim C9 witness: symmetry and reflexivity evaluated at concrete
URLs. -/
theorem isSameDomain_symm_and_refl_witness :
    isSameDomain "http://www.a.com/x" "https://b.org/" = isSameDomain "https://b.org/" "http://www.a.com/x" ∧
      (getBaseDomain "http://www.a.com/x" ≠ "" ∧ isSameDomain "http://www.a.com/x" "http://www.a.com/x" = true) :=
  ⟨isSameDomain_symm_and_refl.1 _ _,
    by decide, isSameDomain_symm_and_refl.2 "http://www.a.com/x" (by decide)⟩

/-- The error taxonomy of `src/types/index.ts` (`ErrorType`), extended
with the SEO error kinds used by `src/checkers/seo-validator.ts` and
compared against by `src/crawler.ts`. -/
inductive ErrorType where
  | HTTP_404
  | HTTP_500
  | HTTP_OTHER
  | TIMEOUT
  | DNS_ERROR
  | SSL_ERROR
  | NETWORK_ERROR
  | REDIRECT_LOOP
  | INVALID_URL
  | MISSING_CANONICAL
  | DUPLICATE_CANONICAL
  | INVALID_CANONICAL
  | MISSING_META_DESCRIPTION
  | MISSING_TITLE
  | MISSING_OPEN_GRAPH
deriving DecidableEq, Repr

/-- The `CheckError` from `src/types/index.ts`. -/
structure CheckError where
  type : ErrorType
  url : String
  message : String
  statusCode : Option Nat := none
  sourcePages : List String := []
deriving DecidableEq, Repr

/-- The per-link status values of `LinkInfo.status` (`src/types/index.ts`
plus the `skipped` value assigned in `src/crawler.ts`). -/
inductive LinkStatus where
  | pending
  | checking
  | success
  | error
  | skipped
deriving DecidableEq, Repr

/-- The `LinkInfo` from `src/types/index.ts`: the frontier's record for one
discovered link.  The JS `Set` of source pages is modelled as a
`Finset` (insertion-ordered iteration is not observed by any claim). -/
structure LinkInfo where
  url : String
  sourcePages : Finset String
  status : LinkStatus
  error : Option CheckError := none
  skipReason : Option String := none
deriving DecidableEq

/-- The frontier `discoveredLinks : Map<string, LinkInfo>` of
`src/crawler.ts`, modelled as its entry list in insertion order. -/
def Frontier := List (String × LinkInfo)

/-- The `Map#get` / `Map#has`: the value at the first (and in a JS map,
only) entry with the given key. -/
def frontierGet (m : List (String × LinkInfo)) (k : String) : Option LinkInfo :=
  match m.find? (fun e => e.1 == k) with
  | some e => some e.2
  | none => none

/-- In-place mutation of the record stored under a key (the
`linkInfo.sourcePages.add(...)` path of `addDiscoveredLink`): every
entry holding the key is replaced by the new value. -/
def frontierUpdate (m : List (String × LinkInfo)) (k : String) (v : LinkInfo) :
    List (String × LinkInfo) :=
  m.map (fun e => if e.1 = k then (e.1, v) else e)

/-- The `WebsiteCrawler.addDiscoveredLink` (`src/crawler.ts:90-103`):
normalize the URL, then insert a fresh pending record with the source
page as sole source, or add the source page to the existing record's
source set. -/
def addDiscoveredLink (m : List (String × LinkInfo)) (url sourcePage : String) :
    List (String × LinkInfo) :=
  let n := normalizeUrl url
  match frontierGet m n with
  | none =>
      m ++ [(n, { url := n, sourcePages := {sourcePage}, status := LinkStatus.pending })]
  | some li =>
      frontierUpdate m n { li with sourcePages := insert sourcePage li.sourcePages }

/-- Looking a key up after an update of that key rewrites the found
value; other keys are untouched. -/
theorem frontierGet_update_self (m : List (String × LinkInfo)) (k : String) (v : LinkInfo) :
    frontierGet (frontierUpdate m k v) k = (frontierGet m k).map (fun _ => v) := by
  induction m with
  | nil => rfl
  | cons e t ih =>
    by_cases he : e.1 = k
    · simp [frontierUpdate, frontierGet, List.find?_cons, he]
    · have hb : (e.1 == k) = false := beq_eq_false_iff_ne.mpr he
      simp only [frontierUpdate, List.map_cons, if_neg he]
      simp only [frontierUpdate] at ih
      simp [frontierGet, List.find?_cons, hb] at ih ⊢
      exact ih

/-- Updating one key leaves lookups of every other key unchanged. -/
theorem frontierGet_update_other (m : List (String × LinkInfo)) (k k' : String) (v : LinkInfo)
    (hkk : k' ≠ k) :
    frontierGet (frontierUpdate m k v) k' = frontierGet m k' := by
  induction m with
  | nil => rfl
  | cons e t ih =>
    by_cases he : e.1 = k
    · have hb : (k == k') = false := beq_eq_false_iff_ne.mpr fun hh => hkk hh.symm
      simp only [frontierUpdate, List.map_cons, if_pos he]
      simp only [frontierUpdate] at ih
      simp [frontierGet, List.find?_cons, he, hb] at ih ⊢
      exact ih
    · simp only [frontierUpdate, List.map_cons, if_neg he]
      by_cases he' : e.1 = k'
      · simp [frontierGet, List.find?_cons, he']
      · have hb : (e.1 == k') = false := beq_eq_false_iff_ne.mpr he'
        simp only [frontierUpdate] at ih
        simp [frontierGet, List.find?_cons, hb] at ih ⊢
        exact ih

/-- Claim C1: adding two normalization-equivalent URLs from two distinct
source pages to a frontier that does not yet hold their canonical URL
leaves exactly one record keyed by that canonical URL, with a source
set of size 2; repeating either call leaves the frontier unchanged. -/
theorem addDiscoveredLink_dedup (m : List (String × LinkInfo)) (u1 u2 p1 p2 : String)
    (hnorm : normalizeUrl u1 = normalizeUrl u2) (hp : p1 ≠ p2)
    (hnew : frontierGet m (normalizeUrl u1) = none) :
    ((addDiscoveredLink (addDiscoveredLink m u1 p1) u2 p2).filter
        (fun e => e.1 == normalizeUrl u1)).length = 1 ∧
    (∃ li, frontierGet (addDiscoveredLink (addDiscoveredLink m u1 p1) u2 p2) (normalizeUrl u1)
        = some li ∧ li.sourcePages.card = 2) ∧
    addDiscoveredLink (addDiscoveredLink (addDiscoveredLink m u1 p1) u2 p2) u1 p1
      = addDiscoveredLink (addDiscoveredLink m u1 p1) u2 p2 ∧
    addDiscoveredLink (addDiscoveredLink (addDiscoveredLink m u1 p1) u2 p2) u2 p2
      = addDiscoveredLink (addDiscoveredLink m u1 p1) u2 p2 := by
  set n := normalizeUrl u1 with hn
  have hfind : m.find? (fun e => e.1 == n) = none := by
    unfold frontierGet at hnew
    cases h : m.find? (fun e => e.1 == n) with
    | none => rfl
    | some e =>
      rw [h] at hnew
      simp at hnew
  have hnone := List.find?_eq_none.mp hfind
  have hget : ∀ v : LinkInfo, frontierGet (m ++ [(n, v)]) n = some v := by
    intro v
    unfold frontierGet
    rw [List.find?_append, hfind]
    simp [List.find?_cons]
  have hmapid : ∀ v' : LinkInfo,
      (m.map (fun e => if e.1 = n then (e.1, v') else e)) = m := by
    intro v'
    have hcong : ∀ e ∈ m, (if e.1 = n then (e.1, v') else e) = id e := by
      intro e he
      rw [if_neg, id]
      intro hh
      have h2 := hnone e he
      rw [hh] at h2
      simp at h2
    rw [List.map_congr_left hcong, List.map_id]
  have hupd : ∀ v v' : LinkInfo, frontierUpdate (m ++ [(n, v)]) n v' = m ++ [(n, v')] := by
    intro v v'
    unfold frontierUpdate
    rw [List.map_append, hmapid]
    simp
  set li1 : LinkInfo := { url := n, sourcePages := {p1}, status := LinkStatus.pending } with hli1
  set li2 : LinkInfo :=
      { url := n, sourcePages := insert p2 {p1}, status := LinkStatus.pending } with hli2
  have h1 : addDiscoveredLink m u1 p1 = m ++ [(n, li1)] := by
    unfold addDiscoveredLink
    dsimp only
    rw [hnew]
  have h2 : addDiscoveredLink (m ++ [(n, li1)]) u2 p2 = m ++ [(n, li2)] := by
    unfold addDiscoveredLink
    dsimp only
    rw [← hnorm, hget]
    dsimp only
    rw [hupd]
  rw [h1, h2]
  refine ⟨?_, ⟨li2, hget li2, ?_⟩, ?_, ?_⟩
  · rw [List.filter_append]
    have hfm : m.filter (fun e => e.1 == n) = [] := by
      rw [List.filter_eq_nil_iff]
      exact hnone
    rw [hfm]
    simp
  · rw [hli2]
    have hmem : p2 ∉ ({p1} : Finset String) := by
      simp
      exact fun hh => hp hh.symm
    simp [Finset.card_insert_of_not_mem hmem]
  · unfold addDiscoveredLink
    dsimp only
    rw [hget]
    dsimp only
    have hins : insert p1 ({p2, p1} : Finset String) = {p2, p1} :=
      Finset.insert_eq_self.mpr (by simp)
    rw [hins, hupd]
  · unfold addDiscoveredLink
    dsimp only
    rw [← hnorm, hget]
    dsimp only
    have hins : insert p2 ({p2, p1} : Finset String) = {p2, p1} :=
      Finset.insert_eq_self.mpr (by simp)
    rw [hins, hupd]

/-- Claim C1 witness: two spellings of the same canonical URL added from
two source pages. -/
theorem addDiscoveredLink_dedup_witness :
    ((addDiscoveredLink (addDiscoveredLink [] "http://x/a?q=1" "http://x/p1") "http://x/a#f" "http://x/p2").filter
        (fun e => e.1 == normalizeUrl "http://x/a?q=1")).length = 1 ∧
    (∃ li, frontierGet (addDiscoveredLink (addDiscoveredLink [] "http://x/a?q=1" "http://x/p1") "http://x/a#f" "http://x/p2")
        (normalizeUrl "http://x/a?q=1") = some li ∧ li.sourcePages.card = 2) ∧
    addDiscoveredLink (addDiscoveredLink (addDiscoveredLink [] "http://x/a?q=1" "http://x/p1") "http://x/a#f" "http://x/p2") "http://x/a?q=1" "http://x/p1"
      = addDiscoveredLink (addDiscoveredLink [] "http://x/a?q=1" "http://x/p1") "http://x/a#f" "http://x/p2" ∧
    addDiscoveredLink (addDiscoveredLink (addDiscoveredLink [] "http://x/a?q=1" "http://x/p1") "http://x/a#f" "http://x/p2") "http://x/a#f" "http://x/p2"
      = addDiscoveredLink (addDiscoveredLink [] "http://x/a?q=1" "http://x/p1") "http://x/a#f" "http://x/p2" :=
  addDiscoveredLink_dedup [] "http://x/a?q=1" "http://x/a#f" "http://x/p1" "http://x/p2"
    (by decide) (by decide) rfl

/-- Claim C10: when the canonical URL already has a record,
`addDiscoveredLink` only grows that record's source set; its other
fields and every other record are unchanged. -/
theorem addDiscoveredLink_frame (m : List (String × LinkInfo)) (url p : String) (li : LinkInfo)
    (h : frontierGet m (normalizeUrl url) = some li) :
    (∃ li', frontierGet (addDiscoveredLink m url p) (normalizeUrl url) = some li' ∧
      li'.url = li.url ∧ li'.status = li.status ∧ li'.error = li.error ∧
      li'.skipReason = li.skipReason ∧ li'.sourcePages = insert p li.sourcePages) ∧
    ∀ k, k ≠ normalizeUrl url → frontierGet (addDiscoveredLink m url p) k = frontierGet m k := by
  have hadd : addDiscoveredLink m url p
      = frontierUpdate m (normalizeUrl url) { li with sourcePages := insert p li.sourcePages } := by
    unfold addDiscoveredLink
    dsimp only
    rw [h]
  rw [hadd]
  constructor
  · refine ⟨{ li with sourcePages := insert p li.sourcePages }, ?_, rfl, rfl, rfl, rfl, rfl⟩
    rw [frontierGet_update_self, h]
    rfl
  · intro k hk
    exact frontierGet_update_other m (normalizeUrl url) k _ hk

/-- A one-record frontier used to witness the frame property. -/
def frameExampleLink : LinkInfo :=
  { url := "http://x/a", sourcePages := {"http://x/p0"}, status := LinkStatus.pending }

/-- Claim C10 witness: adding a new source page to an existing record at
a concrete frontier. -/
theorem addDiscoveredLink_frame_witness :
    (∃ li', frontierGet
        (addDiscoveredLink [("http://x/a", frameExampleLink)] "http://x/a?z" "http://x/p9")
        (normalizeUrl "http://x/a?z") = some li' ∧
      li'.url = frameExampleLink.url ∧ li'.status = frameExampleLink.status ∧
      li'.error = frameExampleLink.error ∧ li'.skipReason = frameExampleLink.skipReason ∧
      li'.sourcePages = insert "http://x/p9" frameExampleLink.sourcePages) ∧
    ∀ k, k ≠ normalizeUrl "http://x/a?z" →
      frontierGet
        (addDiscoveredLink [("http://x/a", frameExampleLink)] "http://x/a?z" "http://x/p9") k =
      frontierGet [("http://x/a", frameExampleLink)] k :=
  addDiscoveredLink_frame _ "http://x/a?z" "http://x/p9" frameExampleLink (by decide)

/-- Substring test on character lists, modelling JS
`String#includes`. -/
def containsSub : List Char → List Char → Bool
  | hay, pat =>
    if pat.isPrefixOf hay then true
    else
      match hay with
      | [] => false
      | _ :: t => containsSub t pat

/-- The `String#includes` on strings. -/
def strContains (s pat : String) : Bool :=
  containsSub s.data pat.data

/-- Outcome of one `fetch` attempt by the existence-check transport
(§6 of the spec): either an HTTP response with status and status text,
or a thrown error carrying the JS error `name` and `message`. -/
inductive FetchOutcome where
  | response (status : Nat) (statusText : String)
  | failure (name : String) (message : String)
deriving DecidableEq, Repr

/-- One entry of `LinkChecker.responseCache`
(`src/checkers/link-checker.ts`, cached variant): the last outcome plus
its creation timestamp in milliseconds. -/
structure CacheEntry where
  success : Bool
  error : Option CheckError := none
  timestamp : Nat
deriving DecidableEq, Repr

/-- The cache TTL (`cacheTTL = 60000` ms). -/
def cacheTTL : Nat := 60000

/-- The `Map#get` on the response cache. -/
def cacheGet (m : List (String × CacheEntry)) (k : String) : Option CacheEntry :=
  match m.find? (fun e => e.1 == k) with
  | some e => some e.2
  | none => none

/-- The `Map#set` on the response cache: update in place when the key is
present, append otherwise. -/
def cacheSet (m : List (String × CacheEntry)) (k : String) (v : CacheEntry) :
    List (String × CacheEntry) :=
  if (m.find? (fun e => e.1 == k)).isSome then
    m.map (fun e => if e.1 = k then (e.1, v) else e)
  else m ++ [(k, v)]

/-- The result returned by `validateUrl`. -/
structure ValidationOutcome where
  success : Bool
  error : Option CheckError := none
deriving DecidableEq, Repr

/-- Observable network events of one `validateUrl` call: an issued HEAD
request (with its attempt index) or a backoff sleep (in ms). -/
inductive NetEvent where
  | head (attempt : Nat)
  | sleep (ms : Nat)
deriving DecidableEq, Repr

/-- Whether a network event is an issued HEAD request. -/
def NetEvent.isHead : NetEvent → Bool
  | .head _ => true
  | .sleep _ => false

/-- The fresh-cache-hit test at the top of `validateUrl`: the cached
entry, provided `now - timestamp < cacheTTL`. -/
def freshCached (cache : List (String × CacheEntry)) (url : String) (now : Nat) :
    Option CacheEntry :=
  match cacheGet cache url with
  | some e => if now - e.timestamp < cacheTTL then some e else none
  | none => none

/-- HTTP status classification of `validateUrl`
(`404 → HTTP_404`, `≥ 500 → HTTP_500`, otherwise `HTTP_OTHER`). -/
def classifyStatus (status : Nat) : ErrorType :=
  if status = 404 then ErrorType.HTTP_404
  else if 500 ≤ status then ErrorType.HTTP_500
  else ErrorType.HTTP_OTHER

/-- Transport-fault classification of `validateUrl`: abort → timeout;
`ENOTFOUND`/`getaddrinfo` → DNS; `certificate`/`SSL` → SSL; anything
else → network error (with the JS `||` default for an empty message). -/
def classifyFetchFailure (timeout : Nat) (name message : String) : ErrorType × String :=
  if name = "AbortError" then
    (ErrorType.TIMEOUT, "Request timeout after " ++ toString timeout ++ " seconds")
  else if strContains message "ENOTFOUND" || strContains message "getaddrinfo" then
    (ErrorType.DNS_ERROR, "DNS resolution failed")
  else if strContains message "certificate" || strContains message "SSL" then
    (ErrorType.SSL_ERROR, "SSL certificate error")
  else
    (ErrorType.NETWORK_ERROR, if message = "" then "Network error" else message)

/-- The `LinkChecker.validateUrl` (cached variant, `src/types/index.ts`
lines 207-304): consult the cache; on a fresh hit return the cached
outcome with no I/O; otherwise issue a HEAD request.  A 2xx response is
cached as success; a failing status is classified and cached with no
retry; a thrown transport error sleeps `2^retryAttempt` seconds and
recurses while `retryAttempt < retryCount`, and is classified and
cached once retries are exhausted.  `remaining` is the structural
counter `retryCount - retryAttempt`; the result is the outcome, the
updated cache and the list of network events in order. -/
def validateUrlGo (transport : Nat → FetchOutcome) (timeout : Nat) (url : String) :
    Nat → List (String × CacheEntry) → Nat → Nat →
      ValidationOutcome × List (String × CacheEntry) × List NetEvent
  | remaining, cache, now, retryAttempt =>
    match freshCached cache url now with
    | some e => ({ success := e.success, error := e.error }, cache, [])
    | none =>
      match transport retryAttempt with
      | .response status statusText =>
        if 200 ≤ status && status < 300 then
          ({ success := true },
            cacheSet cache url { success := true, timestamp := now },
            [NetEvent.head retryAttempt])
        else
          let err : CheckError :=
            { type := classifyStatus status, url := url,
              message := toString status ++ " " ++ statusText,
              statusCode := some status, sourcePages := [] }
          ({ success := false, error := some err },
            cacheSet cache url { success := false, error := some err, timestamp := now },
            [NetEvent.head retryAttempt])
      | .failure name message =>
        match remaining with
        | r + 1 =>
          let delay := 2 ^ retryAttempt * 1000
          let rec1 := validateUrlGo transport timeout url r cache (now + delay) (retryAttempt + 1)
          (rec1.1, rec1.2.1, NetEvent.head retryAttempt :: NetEvent.sleep delay :: rec1.2.2)
        | 0 =>
          let cls := classifyFetchFailure timeout name message
          let err : CheckError :=
            { type := cls.1, url := url, message := cls.2, sourcePages := [] }
          ({ success := false, error := some err },
            cacheSet cache url { success := false, error := some err, timestamp := now },
            [NetEvent.head retryAttempt])

/-- The `validateUrl(url)`: the public entry point starts at
`retryAttempt = 0`, so `retryCount` retries remain. -/
def validateUrl (transport : Nat → FetchOutcome) (timeout retryCount : Nat) (url : String)
    (cache : List (String × CacheEntry)) (now : Nat) :
    ValidationOutcome × List (String × CacheEntry) × List NetEvent :=
  validateUrlGo transport timeout url retryCount cache now 0


/-- Cache lookup after an in-place update of the same key. -/
theorem cacheGet_mapUpdate_self (m : List (String × CacheEntry)) (k : String) (v : CacheEntry) :
    cacheGet (m.map (fun e => if e.1 = k then (e.1, v) else e)) k =
      (cacheGet m k).map (fun _ => v) := by
  induction m with
  | nil => rfl
  | cons e t ih =>
    by_cases he : e.1 = k
    · simp [cacheGet, List.find?_cons, he]
    · have hb : (e.1 == k) = false := beq_eq_false_iff_ne.mpr he
      simp only [List.map_cons, if_neg he]
      simp [cacheGet, List.find?_cons, hb] at ih ⊢
      exact ih

/-- The `Map#set` followed by `Map#get` of the same key yields the stored
value. -/
theorem cacheGet_set_self (m : List (String × CacheEntry)) (k : String) (v : CacheEntry) :
    cacheGet (cacheSet m k v) k = some v := by
  unfold cacheSet
  split
  · rename_i hsome
    rw [cacheGet_mapUpdate_self]
    unfold cacheGet
    cases h : m.find? (fun e => e.1 == k) with
    | none => rw [h] at hsome; simp at hsome
    | some e => simp
  · unfold cacheGet
    rw [List.find?_append]
    cases h : m.find? (fun e => e.1 == k) with
    | none => simp [List.find?_cons]
    | some e =>
      rename_i hsome
      rw [h] at hsome
      simp at hsome

/-- A `validateUrl` call that hits a fresh cache entry returns the
cached outcome, leaves the cache unchanged, and performs no network
events. -/
theorem validateUrl_cached (tr : Nat → FetchOutcome) (timeout rc : Nat) (url : String)
    (cache : List (String × CacheEntry)) (now : Nat) (e : CacheEntry)
    (h : cacheGet cache url = some e) (hf : now - e.timestamp < cacheTTL) :
    validateUrl tr timeout rc url cache now =
      ({ success := e.success, error := e.error }, cache, []) := by
  unfold validateUrl validateUrlGo freshCached
  rw [h]
  simp [hf]

/-- The classified error built by `validateUrl` for a failing HTTP
status: kind by `classifyStatus`, message from status and status text,
and the numeric status code recorded. -/
def statusError (url : String) (status : Nat) (stext : String) : CheckError :=
  { type := classifyStatus status
    url := url
    message := toString status ++ " " ++ stext
    statusCode := some status
    sourcePages := [] }

/-- The classified error built by `validateUrl` once transport retries
are exhausted. -/
def failureError (timeout : Nat) (url name message : String) : CheckError :=
  { type := (classifyFetchFailure timeout name message).1
    url := url
    message := (classifyFetchFailure timeout name message).2
    sourcePages := [] }

/-- A `validateUrl` call that misses the cache and receives an HTTP
response resolves in exactly one HEAD request, classifying and caching
the outcome by status. -/
theorem validateUrl_miss_response (tr : Nat → FetchOutcome) (timeout rc : Nat) (url : String)
    (cache : List (String × CacheEntry)) (now status : Nat) (stext : String)
    (hmiss : cacheGet cache url = none) (h0 : tr 0 = .response status stext) :
    validateUrl tr timeout rc url cache now =
      if 200 ≤ status && status < 300 then
        ({ success := true },
          cacheSet cache url { success := true, timestamp := now }, [NetEvent.head 0])
      else
        ({ success := false, error := some (statusError url status stext) },
          cacheSet cache url
            { success := false, error := some (statusError url status stext), timestamp := now },
          [NetEvent.head 0]) := by
  unfold validateUrl validateUrlGo freshCached
  rw [hmiss, h0]
  dsimp only [statusError]

/-- Claim C2: when a URL whose cache entry is absent is validated and
the transport answers the first attempt with an HTTP response, exactly
one HEAD request is issued; a second validation within the TTL window
(here against an arbitrary second transport) issues no network event at
all and returns the first call's outcome with the cache unchanged. -/
theorem validateUrl_cache_freshness (tr tr2 : Nat → FetchOutcome) (timeout rc : Nat)
    (url : String) (cache : List (String × CacheEntry)) (now1 now2 status : Nat)
    (stext : String)
    (hmiss : cacheGet cache url = none)
    (h0 : tr 0 = .response status stext)
    (hfresh : now2 - now1 < cacheTTL) :
    (validateUrl tr timeout rc url cache now1).2.2 = [NetEvent.head 0] ∧
    (validateUrl tr2 timeout rc url (validateUrl tr timeout rc url cache now1).2.1 now2).2.2
      = [] ∧
    (validateUrl tr2 timeout rc url (validateUrl tr timeout rc url cache now1).2.1 now2).1
      = (validateUrl tr timeout rc url cache now1).1 ∧
    (validateUrl tr2 timeout rc url (validateUrl tr timeout rc url cache now1).2.1 now2).2.1
      = (validateUrl tr timeout rc url cache now1).2.1 := by
  have h1 := validateUrl_miss_response tr timeout rc url cache now1 status stext hmiss h0
  by_cases hok : (200 ≤ status && status < 300) = true
  · rw [if_pos hok] at h1
    have h2 := validateUrl_cached tr2 timeout rc url
      (cacheSet cache url { success := true, timestamp := now1 }) now2
      { success := true, timestamp := now1 } (cacheGet_set_self _ _ _) hfresh
    rw [h1]
    exact ⟨rfl, by rw [h2], by rw [h2], by rw [h2]⟩
  · rw [if_neg hok] at h1
    have h2 := validateUrl_cached tr2 timeout rc url
      (cacheSet cache url
        { success := false, error := some (statusError url status stext), timestamp := now1 })
      now2
      { success := false, error := some (statusError url status stext), timestamp := now1 }
      (cacheGet_set_self _ _ _) hfresh
    rw [h1]
    exact ⟨rfl, by rw [h2], by rw [h2], by rw [h2]⟩

/-- Claim C2 witness: a 200 response at time 0 and a second call 59999
ms later. -/
theorem validateUrl_cache_freshness_witness :
    (validateUrl (fun _ => .response 200 "OK") 60 3 "http://x/a" [] 0).2.2 = [NetEvent.head 0] ∧
    (validateUrl (fun _ => .failure "E" "down") 60 3 "http://x/a"
        (validateUrl (fun _ => .response 200 "OK") 60 3 "http://x/a" [] 0).2.1 59999).2.2 = [] ∧
    (validateUrl (fun _ => .failure "E" "down") 60 3 "http://x/a"
        (validateUrl (fun _ => .response 200 "OK") 60 3 "http://x/a" [] 0).2.1 59999).1
      = (validateUrl (fun _ => .response 200 "OK") 60 3 "http://x/a" [] 0).1 ∧
    (validateUrl (fun _ => .failure "E" "down") 60 3 "http://x/a"
        (validateUrl (fun _ => .response 200 "OK") 60 3 "http://x/a" [] 0).2.1 59999).2.1
      = (validateUrl (fun _ => .response 200 "OK") 60 3 "http://x/a" [] 0).2.1 :=
  validateUrl_cache_freshness (fun _ => .response 200 "OK") (fun _ => .failure "E" "down")
    60 3 "http://x/a" [] 0 59999 200 "OK" rfl rfl (by decide)

/-- Claim C6: a non-2xx response is terminal with a single HEAD request
and no retry; 404 maps to the not-found kind, ≥ 500 to the server-error
kind, and any other failing status to the other-HTTP-error kind, with
the numeric status code recorded on the error. -/
theorem validateUrl_http_fault_no_retry (tr : Nat → FetchOutcome) (timeout rc : Nat)
    (url : String) (cache : List (String × CacheEntry)) (now status : Nat) (stext : String)
    (hmiss : cacheGet cache url = none)
    (h0 : tr 0 = .response status stext)
    (hbad : ¬(200 ≤ status ∧ status < 300)) :
    (validateUrl tr timeout rc url cache now).2.2 = [NetEvent.head 0] ∧
    (validateUrl tr timeout rc url cache now).1.success = false ∧
    (validateUrl tr timeout rc url cache now).1.error = some (statusError url status stext) ∧
    (statusError url status stext).statusCode = some status ∧
    (status = 404 → (statusError url status stext).type = ErrorType.HTTP_404) ∧
    (500 ≤ status → (statusError url status stext).type = ErrorType.HTTP_500) ∧
    (status ≠ 404 → status < 500 → (statusError url status stext).type = ErrorType.HTTP_OTHER) := by
  have h1 := validateUrl_miss_response tr timeout rc url cache now status stext hmiss h0
  have hok : (200 ≤ status && status < 300) = false := by
    rw [Bool.and_eq_false_iff]
    by_cases h2 : 200 ≤ status
    · right
      rw [decide_eq_false_iff_not]
      intro h3
      exact hbad ⟨h2, h3⟩
    · left
      rw [decide_eq_false_iff_not]
      exact h2
  rw [if_neg (by rw [hok]; intro hh; exact Bool.false_ne_true hh)] at h1
  rw [h1]
  refine ⟨rfl, rfl, rfl, rfl, ?_, ?_, ?_⟩
  · intro h4
    simp [statusError, classifyStatus, h4]
  · intro h4
    have h5 : status ≠ 404 := by omega
    simp [statusError, classifyStatus, h5, h4]
  · intro h4 h5
    have h6 : ¬(500 ≤ status) := by omega
    simp [statusError, classifyStatus, h4, h6]

/-- Claim C6 witness: a 503 response classified as a server error in one
attempt. -/
theorem validateUrl_http_fault_no_retry_witness :
    (validateUrl (fun _ => .response 503 "Service Unavailable") 60 3 "http://x/a" [] 7).2.2
      = [NetEvent.head 0] ∧
    (validateUrl (fun _ => .response 503 "Service Unavailable") 60 3 "http://x/a" [] 7).1.success
      = false ∧
    (validateUrl (fun _ => .response 503 "Service Unavailable") 60 3 "http://x/a" [] 7).1.error
      = some (statusError "http://x/a" 503 "Service Unavailable") ∧
    (statusError "http://x/a" 503 "Service Unavailable").statusCode = some 503 ∧
    ((503 : Nat) = 404 →
      (statusError "http://x/a" 503 "Service Unavailable").type = ErrorType.HTTP_404) ∧
    ((500 : Nat) ≤ 503 →
      (statusError "http://x/a" 503 "Service Unavailable").type = ErrorType.HTTP_500) ∧
    ((503 : Nat) ≠ 404 → (503 : Nat) < 500 →
      (statusError "http://x/a" 503 "Service Unavailable").type = ErrorType.HTTP_OTHER) :=
  validateUrl_http_fault_no_retry (fun _ => .response 503 "Service Unavailable")
    60 3 "http://x/a" [] 7 503 "Service Unavailable" rfl rfl (by decide)

/-- With an always-throwing transport and no cache entry, `validateUrlGo`
runs the retry loop to exhaustion: one HEAD per attempt, a `2^attempt`
second backoff between consecutive attempts, then the classified
terminal error. -/
theorem validateUrlGo_allfail (tr : Nat → FetchOutcome) (timeout : Nat) (url : String)
    (name message : String) (htr : ∀ i, tr i = .failure name message) :
    ∀ (r a now : Nat) (cache : List (String × CacheEntry)),
      cacheGet cache url = none →
      ∃ cache', validateUrlGo tr timeout url r cache now a =
        ({ success := false, error := some (failureError timeout url name message) }, cache',
          (List.range' a r).flatMap
              (fun i => [NetEvent.head i, NetEvent.sleep (2 ^ i * 1000)])
            ++ [NetEvent.head (a + r)]) := by
  intro r
  induction r with
  | zero =>
    intro a now cache hmiss
    refine ⟨cacheSet cache url
      { success := false, error := some (failureError timeout url name message),
        timestamp := now }, ?_⟩
    unfold validateUrlGo freshCached
    rw [hmiss, htr a]
    dsimp only [failureError]
    simp
  | succ r ih =>
    intro a now cache hmiss
    obtain ⟨cache', hrec⟩ := ih (a + 1) (now + 2 ^ a * 1000) cache hmiss
    refine ⟨cache', ?_⟩
    unfold validateUrlGo freshCached
    rw [hmiss, htr a]
    dsimp only
    rw [hrec]
    dsimp only
    rw [List.range'_succ]
    simp only [List.flatMap_cons, List.cons_append, List.nil_append]
    have hsum : a + 1 + r = a + (r + 1) := by omega
    rw [hsum]

/-- Each attempt of the exhausted retry trace contributes exactly one
HEAD request. -/
theorem retryTrace_head_count (L : List Nat) (f : Nat → Nat) :
    ((L.flatMap (fun i => [NetEvent.head i, NetEvent.sleep (f i)])).filter
        NetEvent.isHead).length = L.length := by
  induction L with
  | nil => rfl
  | cons x t ih =>
    simp only [List.flatMap_cons, List.filter_append]
    rw [List.length_append, ih]
    simp [List.filter, NetEvent.isHead]
    omega

/-- Claim C3: a transport that throws on every attempt is attempted
exactly `retryCount + 1` times, with a `2^attempt * 1000` ms backoff
sleep after each failed attempt `attempt = 0, …, retryCount - 1`, and
only then does `validateUrl` return the classified terminal error. -/
theorem validateUrl_retry_bound (tr : Nat → FetchOutcome) (timeout rc : Nat) (url : String)
    (cache : List (String × CacheEntry)) (now : Nat) (name message : String)
    (hmiss : cacheGet cache url = none)
    (htr : ∀ i, tr i = .failure name message) :
    (validateUrl tr timeout rc url cache now).2.2 =
      (List.range rc).flatMap (fun i => [NetEvent.head i, NetEvent.sleep (2 ^ i * 1000)])
        ++ [NetEvent.head rc] ∧
    ((validateUrl tr timeout rc url cache now).2.2.filter NetEvent.isHead).length = rc + 1 ∧
    (validateUrl tr timeout rc url cache now).1.success = false ∧
    (validateUrl tr timeout rc url cache now).1.error
      = some (failureError timeout url name message) := by
  obtain ⟨cache', heq⟩ := validateUrlGo_allfail tr timeout url name message htr rc 0 now cache hmiss
  have hv : validateUrl tr timeout rc url cache now =
      ({ success := false, error := some (failureError timeout url name message) }, cache',
        (List.range' 0 rc).flatMap
            (fun i => [NetEvent.head i, NetEvent.sleep (2 ^ i * 1000)])
          ++ [NetEvent.head (0 + rc)]) := heq
  rw [hv, ← List.range_eq_range']
  refine ⟨by rw [Nat.zero_add], ?_, rfl, rfl⟩
  rw [List.filter_append, List.length_append, retryTrace_head_count]
  simp [NetEvent.isHead]

/-- Claim C3 witness: two configured retries yield three attempts with
1 s and 2 s backoffs and a terminal network error. -/
theorem validateUrl_retry_bound_witness :
    (validateUrl (fun _ => .failure "E" "boom") 60 2 "http://x/a" [] 0).2.2 =
      (List.range 2).flatMap (fun i => [NetEvent.head i, NetEvent.sleep (2 ^ i * 1000)])
        ++ [NetEvent.head 2] ∧
    ((validateUrl (fun _ => .failure "E" "boom") 60 2 "http://x/a" [] 0).2.2.filter
        NetEvent.isHead).length = 2 + 1 ∧
    (validateUrl (fun _ => .failure "E" "boom") 60 2 "http://x/a" [] 0).1.success = false ∧
    (validateUrl (fun _ => .failure "E" "boom") 60 2 "http://x/a" [] 0).1.error
      = some (failureError 60 "http://x/a" "E" "boom") :=
  validateUrl_retry_bound (fun _ => .failure "E" "boom") 60 2 "http://x/a" [] 0 "E" "boom"
    rfl (fun _ => rfl)

/-- JS `String#trim`: drop leading and trailing whitespace. -/
def jsTrim (s : String) : String :=
  String.mk (((s.data.dropWhile Char.isWhitespace).reverse.dropWhile Char.isWhitespace).reverse)

/-- JS `String#toLowerCase` (ASCII range, which is all the fixed
patterns need). -/
def jsToLower (s : String) : String :=
  String.mk (s.data.map Char.toLower)

/-- The page data the SEO validator extracts from the rendered document
(`extractCanonicalUrl`, `extractMetaDescription`, `extractTitle`,
`checkOpenGraphTags` in `src/checkers/seo-validator.ts`). -/
structure PageSEOData where
  canonical : Option String
  canonicalCount : Nat
  metaDescription : Option String
  title : Option String
  hasOgTitle : Bool
  hasOgDescription : Bool
  hasOgImage : Bool
deriving DecidableEq, Repr

/-- The `CheckWarning` from `src/types/index.ts`. -/
structure CheckWarning where
  type : String
  message : String
  url : String
deriving DecidableEq, Repr

/-- The `CheckResult` from `src/types/index.ts`. -/
structure CheckResult where
  passed : Bool
  errors : List CheckError
  warnings : List CheckWarning
deriving DecidableEq, Repr

/-- An SEO check error with no status code and no source pages yet. -/
def seoError (url : String) (t : ErrorType) (msg : String) : CheckError :=
  { type := t, url := url, message := msg, sourcePages := [] }

/-- An SEO check warning. -/
def seoWarning (url ty msg : String) : CheckWarning :=
  { type := ty, message := msg, url := url }

/-- Canonical-tag section of `SEOValidator.run`
(`src/checkers/seo-validator.ts:100-136`). -/
def seoCanonicalChecks (url : String) (canonical : Option String) (count : Nat) :
    List CheckError × List CheckWarning :=
  if count = 0 then
    ([seoError url ErrorType.MISSING_CANONICAL "Page is missing canonical URL tag"], [])
  else if 1 < count then
    ([seoError url ErrorType.DUPLICATE_CANONICAL
        ("Page has " ++ toString count ++ " canonical URL tags (should have exactly 1)")], [])
  else
    match canonical with
    | some c =>
      if c == "" then ([], [])
      else if !(isValidUrl c) then
        ([seoError url ErrorType.INVALID_CANONICAL ("Canonical URL is not valid: " ++ c)], [])
      else if normalizeUrl c == normalizeUrl url then ([], [])
      else
        ([], [seoWarning url "Non-Self-Referential Canonical"
            ("Canonical URL points to different page: " ++ c)])
    | none => ([], [])

/-- Meta-description section of `SEOValidator.run`
(`src/checkers/seo-validator.ts:139-163`). -/
def seoDescriptionChecks (url : String) (d : Option String) :
    List CheckError × List CheckWarning :=
  match d with
  | none => ([seoError url ErrorType.MISSING_META_DESCRIPTION "Page is missing meta description"], [])
  | some s =>
    if s == "" || jsTrim s == "" then
      ([seoError url ErrorType.MISSING_META_DESCRIPTION "Page is missing meta description"], [])
    else if s.length < 50 then
      ([], [seoWarning url "Short Meta Description"
          ("Meta description is too short (" ++ toString s.length ++ " chars, recommended: 50-160)")])
    else if 160 < s.length then
      ([], [seoWarning url "Long Meta Description"
          ("Meta description is too long (" ++ toString s.length ++ " chars, recommended: 50-160)")])
    else ([], [])

/-- Title section of `SEOValidator.run`
(`src/checkers/seo-validator.ts:166-190`): an absent/blank title is an
error; a present title warns only below 10 or above 60 characters. -/
def seoTitleChecks (url : String) (t : Option String) :
    List CheckError × List CheckWarning :=
  match t with
  | none => ([seoError url ErrorType.MISSING_TITLE "Page is missing title tag"], [])
  | some s =>
    if s == "" || jsTrim s == "" then
      ([seoError url ErrorType.MISSING_TITLE "Page is missing title tag"], [])
    else if s.length < 10 then
      ([], [seoWarning url "Short Title"
          ("Page title is too short (" ++ toString s.length ++ " chars, recommended: 30-60)")])
    else if 60 < s.length then
      ([], [seoWarning url "Long Title"
          ("Page title is too long (" ++ toString s.length ++ " chars, recommended: 30-60)")])
    else ([], [])

/-- Open-Graph section of `SEOValidator.run`
(`src/checkers/seo-validator.ts:193-207`). -/
def seoOpenGraphChecks (url : String) (hasTitle hasDescription hasImage : Bool) :
    List CheckError :=
  let missing := (if !hasTitle then ["og:title"] else [])
    ++ (if !hasDescription then ["og:description"] else [])
    ++ (if !hasImage then ["og:image"] else [])
  if missing.isEmpty then []
  else
    [seoError url ErrorType.MISSING_OPEN_GRAPH
      ("Page is missing Open Graph tags: " ++ String.intercalate ", " missing)]

/-- The `SEOValidator.run` (`src/checkers/seo-validator.ts:92-213`) as a
pure function of the extracted page data. -/
def seoRun (url : String) (d : PageSEOData) : CheckResult :=
  let can := seoCanonicalChecks url d.canonical d.canonicalCount
  let desc := seoDescriptionChecks url d.metaDescription
  let ti := seoTitleChecks url d.title
  let og := seoOpenGraphChecks url d.hasOgTitle d.hasOgDescription d.hasOgImage
  let errors := can.1 ++ desc.1 ++ ti.1 ++ og
  { passed := errors.isEmpty, errors := errors, warnings := can.2 ++ desc.2 ++ ti.2 }

/-- Whether a warning is one of the two title-length warnings. -/
def isTitleLengthWarning (w : CheckWarning) : Bool :=
  w.type == "Short Title" || w.type == "Long Title"

/-- Claim C5 failing input: a 20-character title lies outside the
recommended band [30,60] that the spec, the README and the warning's own
message text all state, yet the code's threshold (`length < 10`) emits
no title-length warning for it. -/
theorem seo_title_band_failing_input :
    (seoRun "http://x/p"
        { canonical := some "http://x/p"
          canonicalCount := 1
          metaDescription :=
            some "This meta description is long enough to sit inside the recommended band."
          title := some "Twenty characters aa"
          hasOgTitle := true
          hasOgDescription := true
          hasOgImage := true }).warnings.filter isTitleLengthWarning = [] ∧
    (seoRun "http://x/p"
        { canonical := some "http://x/p"
          canonicalCount := 1
          metaDescription :=
            some "This meta description is long enough to sit inside the recommended band."
          title := some "Twenty characters aa"
          hasOgTitle := true
          hasOgDescription := true
          hasOgImage := true }).errors = [] ∧
    ("Twenty characters aa" : String).length = 20 ∧
    ¬(30 ≤ ("Twenty characters aa" : String).length ∧
        ("Twenty characters aa" : String).length ≤ 60) := by
  refine ⟨by decide, by decide, by decide, by decide⟩

/-- The fixed soft-404 phrase list of `PageValidator.detectSoft404`
(`src/checkers/page-validator.ts:42-53`). -/
def soft404Patterns : List String :=
  ["page not found", "404", "not found", "page cannot be found",
    "page does not exist", "page doesn\x27t exist",
    "the page you are looking for", "the page you requested",
    "could not be found", "no longer exists"]

/-- The `PageValidator.detectSoft404`
(`src/checkers/page-validator.ts:35-80`): flag when a pattern occurs in
the case-folded title, or occurs in the case-folded body while the body
text is shorter than 200 characters. -/
def detectSoft404 (title bodyText : String) : Bool :=
  let t := jsToLower title
  let b := jsToLower bodyText
  let foundInTitle := soft404Patterns.any (fun p => strContains t p)
  let foundInBody := soft404Patterns.any (fun p => strContains b p)
  let hasMinimalContent := b.length < 200
  foundInTitle || (foundInBody && hasMinimalContent)

/-- The soft-404 error built by `PageValidator.run`. -/
def soft404Error (url : String) : CheckError :=
  { type := ErrorType.HTTP_404
    url := url
    message := "200 OK but appears to be a \"Not Found\" page (Soft 404)"
    statusCode := some 200
    sourcePages := [] }

/-- The status-code checks of `PageValidator.run`
(`src/checkers/page-validator.ts:124-165`). -/
def pageStatusErrors (url : String) (st : Nat) (statusText : String)
    (title bodyText : String) : List CheckError :=
  if st = 404 then
    [{ type := ErrorType.HTTP_404, url := url, message := "404 Not Found",
       statusCode := some 404, sourcePages := [] }]
  else if 500 ≤ st then
    [{ type := ErrorType.HTTP_500, url := url, message := toString st ++ " Server Error",
       statusCode := some st, sourcePages := [] }]
  else if 400 ≤ st then
    [{ type := ErrorType.HTTP_OTHER, url := url, message := toString st ++ " " ++ statusText,
       statusCode := some st, sourcePages := [] }]
  else if st = 200 then
    if detectSoft404 title bodyText then [soft404Error url] else []
  else []

/-- The `PageValidator.run` as a function of the response status and the
rendered page's title and body text; a missing response skips the
status checks. -/
def pageValidatorRun (url : String) (status : Option Nat) (statusText : String)
    (title bodyText : String) : CheckResult :=
  match status with
  | none => { passed := true, errors := [], warnings := [] }
  | some st =>
    let errors := pageStatusErrors url st statusText title bodyText
    { passed := errors.isEmpty, errors := errors, warnings := [] }

/-- The occurrence-as-substring predicate that `String#includes`
decides. -/
def occursIn (pat s : String) : Prop :=
  ∃ pre post, s.data = pre ++ (pat.data ++ post)

/-- The `isPrefixOf` decides the prefix relation, in existential form. -/
theorem isPrefixOf_eq_true_iff {l1 l2 : List Char} :
    l1.isPrefixOf l2 = true ↔ ∃ t, l1 ++ t = l2 := by
  constructor
  · intro h
    exact List.isPrefixOf_iff_prefix.mp h
  · rintro ⟨t, ht⟩
    exact List.isPrefixOf_iff_prefix.mpr ⟨t, ht⟩

/-- The `containsSub` decides contiguous-substring occurrence. -/
theorem containsSub_iff (hay pat : List Char) :
    containsSub hay pat = true ↔ ∃ pre post, hay = pre ++ (pat ++ post) := by
  induction hay with
  | nil =>
    constructor
    · intro h
      conv_lhs at h => rw [containsSub]
      split at h
      · rename_i hpre
        obtain ⟨t, ht⟩ := isPrefixOf_eq_true_iff.mp hpre
        have hpat : pat = [] := by
          cases pat with
          | nil => rfl
          | cons c cs => simp at ht
        exact ⟨[], [], by simp [hpat]⟩
      · simp at h
    · rintro ⟨pre, post, hp⟩
      have hpre : pre = [] := by
        cases pre with
        | nil => rfl
        | cons c cs => simp at hp
      subst hpre
      have hpat : pat = [] := by
        cases pat with
        | nil => rfl
        | cons c cs => simp at hp
      subst hpat
      rw [containsSub]
      simp [List.isPrefixOf]
  | cons c t ih =>
    have hstep : containsSub (c :: t) pat
        = (pat.isPrefixOf (c :: t) || containsSub t pat) := by
      cases h : pat.isPrefixOf (c :: t) with
      | true =>
        rw [Bool.true_or]
        conv_lhs => rw [containsSub]
        rw [h]
        simp
      | false =>
        rw [Bool.false_or]
        conv_lhs => rw [containsSub]
        rw [h]
        simp
    rw [hstep]
    constructor
    · intro h
      have h2 : pat.isPrefixOf (c :: t) = true ∨ containsSub t pat = true := by
        simpa using h
      rcases h2 with h2 | h2
      · obtain ⟨rest, hr⟩ := isPrefixOf_eq_true_iff.mp h2
        exact ⟨[], rest, by simp [hr.symm]⟩
      · obtain ⟨pre, post, hp⟩ := ih.mp h2
        exact ⟨c :: pre, post, by simp [hp]⟩
    · rintro ⟨pre, post, hp⟩
      cases pre with
      | nil =>
        have hpf : pat.isPrefixOf (c :: t) = true := by
          refine isPrefixOf_eq_true_iff.mpr ⟨post, ?_⟩
          simp at hp
          exact hp.symm
        rw [hpf, Bool.true_or]
      | cons d pr =>
        have hc : containsSub t pat = true := by
          refine ih.mpr ⟨pr, post, ?_⟩
          simp at hp
          exact hp.2
        rw [hc, Bool.or_true]

/-- The `strContains` decides the substring predicate on strings. -/
theorem strContains_iff (s pat : String) :
    strContains s pat = true ↔ occursIn pat s :=
  containsSub_iff s.data pat.data

/-- Claim C7: soft-404 detection fires exactly when a fixed pattern
occurs in the case-folded title, or occurs in the case-folded body while
the body text is below the 200-character minimal-content threshold; and
a page answering HTTP 200 whose title is exactly "Page Not Found" is
classified as a Soft-404 error (kind `HTTP_404`, status code 200 kept)
regardless of its body. -/
theorem detectSoft404_spec (title bodyText url statusText body2 : String) :
    (detectSoft404 title bodyText = true ↔
      ((∃ p ∈ soft404Patterns, occursIn p (jsToLower title)) ∨
        ((∃ p ∈ soft404Patterns, occursIn p (jsToLower bodyText)) ∧
          (jsToLower bodyText).length < 200))) ∧
    (pageValidatorRun url (some 200) statusText "Page Not Found" body2).errors
      = [soft404Error url] := by
  constructor
  · unfold detectSoft404
    simp only [List.any_eq_true, Bool.or_eq_true, Bool.and_eq_true, decide_eq_true_eq,
      strContains_iff]
  · have hdet : detectSoft404 "Page Not Found" body2 = true := by
      unfold detectSoft404
      dsimp only
      have h1 : soft404Patterns.any (fun p => strContains (jsToLower "Page Not Found") p)
          = true := by decide
      rw [h1, Bool.true_or]
    unfold pageValidatorRun pageStatusErrors
    dsimp only
    norm_num
    exact hdet

/-- A fetched-and-parsed sitemap document (`src/utils/sitemap.ts`): a
URL set, or a sitemap index whose referenced child sitemaps have been
fetched in turn. -/
inductive SitemapDoc where
  | urlset (urls : List String)
  | index (children : List SitemapDoc)

mutual
/-- The `fetchSitemap` (`src/utils/sitemap.ts:11-79`) restricted to its
parsing result: a URL set yields its locations; an index concatenates
(`allUrls.push(...urls)`) the lists fetched from each child. -/
def sitemapUrls : SitemapDoc → List String
  | .urlset urls => urls
  | .index children => sitemapListUrls children

/-- The `for (const sitemap of sitemaps)` accumulation loop of
`fetchSitemap` over the children of a sitemap index. -/
def sitemapListUrls : List SitemapDoc → List String
  | [] => []
  | d :: ds => sitemapUrls d ++ sitemapListUrls ds
end

/-- JS `URL#origin` for http(s) URLs: scheme, `://`, host (with
port). -/
def urlOrigin (s : String) : Option (List Char) :=
  match parseURL s.data with
  | none => none
  | some u => some (u.scheme ++ "://".data ++ u.hostname ++ u.port)

/-- The `getSitemapUrls` (`src/utils/sitemap.ts:130-143`): fetch, then keep
only URLs sharing the base URL's origin (`none` models the base URL
failing to parse, which throws). -/
def getSitemapUrls (doc : SitemapDoc) (baseUrl : String) : Option (List String) :=
  match urlOrigin baseUrl with
  | none => none
  | some bo =>
      some ((sitemapUrls doc).filter (fun u =>
        match urlOrigin u with
        | some o => o == bo
        | none => false))

/-- Claim C4 counterexample: a sitemap index whose two children share
the URL `http://x/b` makes ingestion return that URL twice — the
returned list is a concatenation, not a duplicate-free union, and the
same-origin filter of `getSitemapUrls` keeps both copies. -/
theorem sitemap_ingestion_dup_counterexample :
    sitemapUrls (SitemapDoc.index
        [SitemapDoc.urlset ["http://x/a", "http://x/b"],
          SitemapDoc.urlset ["http://x/b", "http://x/c"]])
      = ["http://x/a", "http://x/b", "http://x/b", "http://x/c"] ∧
    ¬(sitemapUrls (SitemapDoc.index
        [SitemapDoc.urlset ["http://x/a", "http://x/b"],
          SitemapDoc.urlset ["http://x/b", "http://x/c"]])).Nodup ∧
    getSitemapUrls (SitemapDoc.index
        [SitemapDoc.urlset ["http://x/a", "http://x/b"],
          SitemapDoc.urlset ["http://x/b", "http://x/c"]]) "http://x/"
      = some ["http://x/a", "http://x/b", "http://x/b", "http://x/c"] := by
  refine ⟨by decide, by decide, by decide⟩

/-- Claim C4 (amended): ingesting a sitemap index returns the
concatenation of the children's URL lists — set-wise the union of the
children's URLs, but with multiplicities added rather than
deduplicated, so a URL held by several children appears several times;
deduplication happens only later, at the frontier. -/
theorem sitemapUrls_index_concat (children : List SitemapDoc) (u : String) :
    (sitemapUrls (SitemapDoc.index children)).count u
      = (children.map (fun c => (sitemapUrls c).count u)).sum ∧
    (u ∈ sitemapUrls (SitemapDoc.index children) ↔ ∃ c ∈ children, u ∈ sitemapUrls c) := by
  rw [show sitemapUrls (SitemapDoc.index children) = sitemapListUrls children from rfl]
  induction children with
  | nil => simp [sitemapListUrls]
  | cons d ds ih =>
    constructor
    · rw [sitemapListUrls, List.count_append, List.map_cons, List.sum_cons, ih.1]
    · rw [sitemapListUrls, List.mem_append, ih.2]
      simp
